import Mathlib

/-!
Verification development for the claw-dash API server
(`api-server` in the repository; the current revision is the one with the
request-coalescing `withCache` layer, origin allow-list CORS, and the
`/api/health` endpoint).

JavaScript numbers are modelled by `ℚ` (every concrete value appearing in
the claims is exactly representable), JS strings by `String`, absent/`null`
fields by `Option`, and errors by their message `String`.  Asynchronous
behaviour of the cache is modelled by an explicit small-step machine over
traces of events (a `withCache` call entering its synchronous body, an
in-flight loader resolving, an in-flight loader rejecting); Node's event
loop runs each such step atomically.
-/

namespace ClawDash

/-- JS `s || d` for an optional string: `undefined`, `null` and the empty
string are falsy and select the default. -/
def jsOrStr (o : Option String) (d : String) : String :=
  match o with
  | some s => if s = "" then d else s
  | none => d

/-- JS `x || d` for an optional number: `undefined`, `null` and `0` are
falsy and select the default. -/
def jsOrQ (o : Option ℚ) (d : ℚ) : ℚ :=
  match o with
  | some x => if x = 0 then d else x
  | none => d

/-- JS `x || d` for an optional integer-valued number. -/
def jsOrI (o : Option Int) (d : Int) : Int :=
  match o with
  | some x => if x = 0 then d else x
  | none => d

/-- JS `x || null` for an optional number (`0` collapses to `null`),
as in `status.gateway?.connectLatencyMs || null`. -/
def jsOrNullI (o : Option Int) : Option Int :=
  match o with
  | some x => if x = 0 then none else some x
  | none => none

/-- JS truthiness of an optional string (used by `insights.filter(i => i.anomaly)`):
`null`/`undefined` and the empty string are falsy. -/
def jsTruthyStr (o : Option String) : Bool :=
  match o with
  | some s => s ≠ ""
  | none => false

/-- `pat` is a leading segment of `s` (character lists). -/
def leadsWith : List Char → List Char → Bool
  | [], _ => true
  | _ :: _, [] => false
  | a :: as, b :: bs => a = b && leadsWith as bs

/-- Helper for `hasSubstr`: scan `s` for an occurrence of `pat`. -/
def hasSubstrAux (pat : List Char) : List Char → Bool
  | [] => leadsWith pat []
  | c :: t => leadsWith pat (c :: t) || hasSubstrAux pat t

/-- JS `s.includes(pat)`. -/
def hasSubstr (s pat : String) : Bool := hasSubstrAux pat.data s.data

/-- JS `s.startsWith(pat)` on `url.pathname`. -/
def pathStarts (s pat : String) : Bool := leadsWith pat.data s.data

/-- JS `s.slice(n)`. -/
def strDrop (s : String) (n : Nat) : String := ⟨s.data.drop n⟩

/-- JS `Math.round` (half rounds toward `+∞`). -/
def jsRound (q : ℚ) : Int := Rat.floor (q + 1/2)

/-- JS `Math.max(0, x)` on integers. -/
def jsMax0 (x : Int) : Int := max 0 x

/-! ## The request-coalescing cache (`withCache`, part_002 lines 82-116)

`cacheStore` maps a key to `{ value, timestamp, inFlight }`.  All claims
about the cache are per-key (the `Map` keeps keys independent), so the
machine models the entry of one fixed key together with the ghost data
needed to state the claims: the captured `existing` entry closed over by
the in-flight loader, a counter of loader invocations, a fresh-promise-id
supply, and the largest `Date.now()` value seen so far. -/

/-- One `cacheStore` entry: `value` (`undefined` ↦ `none`), `timestamp`
(ms), and the id of the in-flight promise, if any. -/
structure Entry (V : Type) where
  value : Option V
  timestamp : Nat
  inFlight : Option Nat
deriving DecidableEq, Repr

/-- What a `withCache` call hands back to its caller: a settled value (a
fresh cache hit) or the pending in-flight promise, identified by id. -/
inductive CallResult (V : Type) where
  | value (v : V)
  | pending (pid : Nat)
deriving DecidableEq, Repr

/-- Cache machine state for one key.  `captured` is the `existing` entry
closed over by the active loader (`none` = no entry existed), paired with
its promise id; `clock` is ghost (largest time seen), `invocations` is a
ghost count of loader invocations. -/
structure CacheState (V : Type) where
  entry : Option (Entry V)
  captured : Option (Nat × Option (Option V × Nat))
  nextId : Nat
  clock : Nat
  invocations : Nat
deriving DecidableEq, Repr

/-- Initial state: no entry for the key, nothing in flight. -/
def initState (V : Type) : CacheState V :=
  { entry := none, captured := none, nextId := 0, clock := 0, invocations := 0 }

/-- Lines 94-113 on a miss with nothing in flight: invoke the loader (one
new promise id), store `{ value: existing?.value, timestamp:
existing?.timestamp || 0, inFlight }`, and return the pending promise. -/
def startFetch {V : Type} (st : CacheState V) (now : Nat) : CacheState V × CallResult V :=
  let pid := st.nextId
  let capV : Option V := st.entry.bind (·.value)
  let capT : Nat := match st.entry with | some e => e.timestamp | none => 0
  ({ entry := some ⟨capV, capT, some pid⟩,
     captured := some (pid, st.entry.map (fun e => (e.value, e.timestamp))),
     nextId := pid + 1,
     clock := max st.clock now,
     invocations := st.invocations + 1 }, .pending pid)

/-- Lines 90-92 and the miss path: `if (existing?.inFlight) return
existing.inFlight;` else start a fetch. -/
def missStep {V : Type} (st : CacheState V) (now : Nat) : CacheState V × CallResult V :=
  match st.entry with
  | some e =>
    match e.inFlight with
    | some p => ({ st with clock := max st.clock now }, .pending p)
    | none => startFetch st now
  | none => startFetch st now

/-- The synchronous body of one `withCache(key, ttl, loader)` call at time
`now` (lines 84-92 plus the miss path): a fresh hit (`existing.value !==
undefined && now - existing.timestamp < ttlMs`) returns the stored value,
otherwise the call coalesces onto the in-flight promise or starts the
loader. -/
def callStep {V : Type} (ttl : Nat) (st : CacheState V) (now : Nat) : CacheState V × CallResult V :=
  match st.entry with
  | some e =>
    match e.value with
    | some v =>
      if (now : Int) - e.timestamp < ttl then
        ({ st with clock := max st.clock now }, .value v)
      else missStep st now
    | none => missStep st now
  | none => startFetch st now

/-- Line 97: the in-flight loader with promise id `pid` resolves with `v`
at time `now`; the entry becomes `{ value, timestamp: Date.now(),
inFlight: null }`.  A pid that is not the active fetch cannot settle. -/
def resolveStep {V : Type} (st : CacheState V) (pid : Nat) (v : V) (now : Nat) : CacheState V :=
  match st.captured with
  | some (p, _) =>
    if p = pid then
      { entry := some ⟨some v, now, none⟩, captured := none, nextId := st.nextId,
        clock := max st.clock now, invocations := st.invocations }
    else st
  | none => st

/-- Lines 99-106: the in-flight loader with promise id `pid` rejects at
time `now`.  With `allowStaleOnError` and a previous defined value the
stale value is re-served (second component `some v`) and the entry keeps
the captured timestamp; otherwise the entry is restored to
`{ value: existing?.value, timestamp: existing?.timestamp || 0 }` and the
error propagates (second component `none`). -/
def rejectStep {V : Type} (allowStale : Bool) (st : CacheState V) (pid : Nat) (now : Nat) :
    CacheState V × Option V :=
  match st.captured with
  | some (p, cex) =>
    if p = pid then
      match cex with
      | some (some v, ts) =>
        if allowStale then
          ({ entry := some ⟨some v, ts, none⟩, captured := none, nextId := st.nextId,
             clock := max st.clock now, invocations := st.invocations }, some v)
        else
          ({ entry := some ⟨some v, ts, none⟩, captured := none, nextId := st.nextId,
             clock := max st.clock now, invocations := st.invocations }, none)
      | some (none, ts) =>
        ({ entry := some ⟨none, ts, none⟩, captured := none, nextId := st.nextId,
           clock := max st.clock now, invocations := st.invocations }, none)
      | none =>
        ({ entry := some ⟨none, 0, none⟩, captured := none, nextId := st.nextId,
           clock := max st.clock now, invocations := st.invocations }, none)
    else (st, none)
  | none => (st, none)

/-- Events of the per-key cache machine: a `withCache` call entering its
synchronous body, the active loader resolving, the active loader
rejecting.  Each carries the `Date.now()` reading of that instant. -/
inductive Ev (V : Type) where
  | call (now : Nat)
  | resolve (pid : Nat) (v : V) (now : Nat)
  | reject (pid : Nat) (now : Nat)
deriving DecidableEq, Repr

/-- One machine step. -/
def step {V : Type} (ttl : Nat) (allowStale : Bool) (st : CacheState V) : Ev V → CacheState V
  | .call now => (callStep ttl st now).1
  | .resolve pid v now => resolveStep st pid v now
  | .reject pid now => (rejectStep allowStale st pid now).1

/-- Run the machine over a trace of events from the empty cache. -/
def run {V : Type} (ttl : Nat) (allowStale : Bool) (evs : List (Ev V)) : CacheState V :=
  evs.foldl (step ttl allowStale) (initState V)

/-- Coalescing invariant: while a fetch is in flight the stored entry can
never look fresh again — either no defined value is stored, or the stored
timestamp was already at least `ttl` behind every time observed so far. -/
def Coalesced {V : Type} (ttl : Nat) (st : CacheState V) : Prop :=
  ∀ e, st.entry = some e → e.inFlight.isSome →
    (e.value = none ∨ (st.clock : Int) - e.timestamp ≥ ttl)

theorem coalesced_init {V : Type} (ttl : Nat) : Coalesced ttl (initState V) := by
  intro e he
  simp [initState] at he

theorem coalesced_callStep {V : Type} (ttl : Nat) (st : CacheState V) (now : Nat)
    (hc : Coalesced ttl st) : Coalesced ttl (callStep ttl st now).1 := by
  obtain ⟨entry, captured, nextId, clock, inv⟩ := st
  cases entry with
  | none =>
    intro e he _
    simp only [callStep, startFetch] at he
    cases he
    exact Or.inl rfl
  | some e0 =>
    obtain ⟨val, ts, fl⟩ := e0
    cases val with
    | none =>
      cases fl with
      | some p =>
        intro e he hfl
        simp only [callStep, missStep] at he ⊢
        cases he
        rcases hc ⟨none, ts, some p⟩ rfl (by simp) with h | h
        · exact Or.inl h
        · refine Or.inr ?_
          simp only at h ⊢
          omega
      | none =>
        intro e he _
        simp only [callStep, missStep, startFetch] at he
        cases he
        exact Or.inl rfl
    | some v =>
      by_cases hfresh : (now : Int) - ts < ttl
      · intro e he hfl
        simp only [callStep, if_pos hfresh] at he ⊢
        cases he
        rcases hc ⟨some v, ts, fl⟩ rfl hfl with h | h
        · exact Or.inl h
        · refine Or.inr ?_
          simp only at h ⊢
          omega
      · cases fl with
        | some p =>
          intro e he hfl
          simp only [callStep, if_neg hfresh, missStep] at he ⊢
          cases he
          rcases hc ⟨some v, ts, some p⟩ rfl (by simp) with h | h
          · exact Or.inl h
          · refine Or.inr ?_
            simp only at h ⊢
            omega
        | none =>
          intro e he _
          simp only [callStep, if_neg hfresh, missStep, startFetch] at he ⊢
          cases he
          refine Or.inr ?_
          simp only [Option.bind]
          omega

theorem coalesced_step {V : Type} (ttl : Nat) (allowStale : Bool) (st : CacheState V)
    (ev : Ev V) (hc : Coalesced ttl st) : Coalesced ttl (step ttl allowStale st ev) := by
  cases ev with
  | call now => exact coalesced_callStep ttl st now hc
  | resolve pid v now =>
    obtain ⟨entry, captured, nextId, clock, inv⟩ := st
    cases captured with
    | none => exact hc
    | some pc =>
      by_cases hp : pc.1 = pid
      · intro e he hfl
        simp only [step, resolveStep, if_pos hp] at he
        cases he
        simp at hfl
      · intro e he hfl
        simp only [step, resolveStep, if_neg hp] at he ⊢
        exact hc e he hfl
  | reject pid now =>
    obtain ⟨entry, captured, nextId, clock, inv⟩ := st
    cases captured with
    | none => exact hc
    | some pc =>
      obtain ⟨p, cex⟩ := pc
      by_cases hp : p = pid
      · intro e he hfl
        rcases cex with _ | ⟨_ | v, ts⟩ <;>
          simp only [step, rejectStep, if_pos hp] at he <;>
          first
          | (cases he; simp at hfl)
          | (cases allowStale <;> simp only [if_pos, if_neg, Bool.false_eq_true,
              not_false_iff, cond] at he <;> (cases he; simp at hfl))
      · intro e he hfl
        simp only [step, rejectStep, if_neg hp] at he ⊢
        exact hc e he hfl

theorem coalesced_run {V : Type} (ttl : Nat) (allowStale : Bool) (evs : List (Ev V)) :
    Coalesced ttl (run ttl allowStale evs) := by
  unfold run
  generalize hinit : initState V = st0
  have h0 : Coalesced ttl st0 := hinit ▸ coalesced_init ttl
  clear hinit
  induction evs generalizing st0 with
  | nil => exact h0
  | cons ev evs ih => exact ih _ (coalesced_step ttl allowStale st0 ev h0)

/-- Reduction of a `withCache` call hitting a state whose entry has an
in-flight promise: the call coalesces onto that promise (provided
`Date.now()` has not gone backwards past the recorded clock). -/
theorem callStep_inFlight {V : Type} (ttl : Nat) (st : CacheState V) (now : Nat)
    (hc : Coalesced ttl st) (e : Entry V) (p : Nat)
    (hentry : st.entry = some e) (hflight : e.inFlight = some p)
    (hnow : st.clock ≤ now) :
    (callStep ttl st now).2 = .pending p ∧
    (callStep ttl st now).1.invocations = st.invocations := by
  obtain ⟨entry, captured, nextId, clock, inv⟩ := st
  simp only at hentry
  subst hentry
  obtain ⟨val, ts, fl⟩ := e
  simp only at hflight
  subst hflight
  cases val with
  | none => exact ⟨rfl, rfl⟩
  | some v =>
    rcases hc ⟨some v, ts, some p⟩ rfl (by simp) with h | h
    · simp at h
    · simp only at h
      have hfresh : ¬ ((now : Int) - ts < ttl) := by
        simp only at hnow
        omega
      simp [callStep, if_neg hfresh, missStep]

/-! ## 24-hour token delta (`get24HourTokens`, part_002 lines 225-242)

The SQL query (`WHERE timestamp > since ORDER BY timestamp`) is executed by
the external store; its result — the rows of `openclaw_stats` from the last
86400 s in timestamp order — is the function's input. -/

/-- One `openclaw_stats` row: `{timestamp, sessions, tokens}`. -/
structure TokRow where
  timestamp : Int
  sessions : Int
  tokens : Int
deriving DecidableEq, Repr

/-- Result shape of `get24HourTokens`; the empty-rows early return carries
no `history` field (`none`). -/
structure TokenStats where
  tokens24h : Int
  samples : Nat
  history : Option (List TokRow)
deriving DecidableEq, Repr

/-- The loader body of `get24HourTokens`: empty rows ⇒ `{tokens24h: 0,
samples: 0}`; otherwise the last minus the first `tokens`, floored at 0
with `Math.max`. -/
def get24HourTokens (rows : List TokRow) : TokenStats :=
  match rows with
  | [] => { tokens24h := 0, samples := 0, history := none }
  | r :: rs =>
    let first := r
    let last := (r :: rs).getLast (List.cons_ne_nil r rs)
    { tokens24h := jsMax0 (last.tokens - first.tokens),
      samples := (r :: rs).length,
      history := some (r :: rs) }

/-! ## History range query (`getHistory`, part_002 lines 310-331)

The store is modelled as a function from the queried window (in seconds)
to the returned `metrics` rows, so that two calls with the same window see
the same store contents. -/

/-- One `metrics` row (only `timestamp` is structured; the remaining
columns do not influence the handler). -/
structure MetricRow where
  timestamp : Int
  payload : String
deriving DecidableEq, Repr

/-- The `ranges` table of `getHistory`. -/
def rangesMap : String → Option Nat
  | "1h" => some 3600
  | "8h" => some 28800
  | "24h" => some 86400
  | "7d" => some 604800
  | "30d" => some 2592000
  | _ => none

/-- Result shape of `getHistory`. -/
structure HistoryResult where
  range : String
  count : Nat
  metrics : List MetricRow
deriving DecidableEq, Repr

/-- `getHistory`: normalize the range with the `hasOwnProperty` check
(invalid values fall back to `'1h'`), query the window, and return
`{range: normalizedRange, count, metrics}`. -/
def getHistory (store : Nat → List MetricRow) (range : String) : HistoryResult :=
  let normalizedRange := if (rangesMap range).isSome then range else "1h"
  let seconds := (rangesMap normalizedRange).getD 3600
  let rows := store seconds
  { range := normalizedRange, count := rows.length, metrics := rows }

/-- The HTTP front door reads `url.searchParams.get('range') || '1h'`:
an absent (or empty) parameter becomes `'1h'`. -/
def jsRangeParam (o : Option String) : String := jsOrStr o "1h"

/-! ## CORS origin allow-list (`getAllowedOrigin`, part_002 lines 142-158)

WHATWG-URL parsing of the `Origin` header (`new URL(origin).hostname`) is
external library behaviour and is passed in as a function `parse`
returning the hostname, `none` when the constructor throws. -/

/-- The `localHosts` set of `getAllowedOrigin`. -/
def localHosts : List String := ["localhost", "127.0.0.1", "::1", "[::1]"]

/-- Characters before the first `':'` — `split(':')[0]`. -/
def takeUntilColon : List Char → List Char
  | [] => []
  | c :: cs => if c = ':' then [] else c :: takeUntilColon cs

/-- JS `(req.headers.host || '').split(':')[0]`. -/
def requestHostOf (host : Option String) : String :=
  ⟨takeUntilColon (jsOrStr host "").data⟩

/-- `getAllowedOrigin`: echo the declared origin when its hostname is a
loopback host or equals the `Host` header's hostname; `null` otherwise
(including an absent or unparsable origin). -/
def getAllowedOrigin (parse : String → Option String) (origin host : Option String) :
    Option String :=
  match origin with
  | none => none
  | some o =>
    if o = "" then none else  -- `if (!origin)`: the empty string is falsy
    match parse o with
    | none => none
    | some hostname =>
      let requestHost := requestHostOf host
      if hostname ∈ localHosts then some o
      else if requestHost ≠ "" ∧ hostname = requestHost then some o
      else none

/-! ## OpenClaw status handler (`getOpenClawStats`, part_002 lines 244-308)

Errors thrown by the CLI call are modelled by their message string.
`formatError` (lines 53-57) returns the nonempty message; the `'unknown'`
default stands in for its guard against message-less error values. -/

/-- `formatError`. -/
def formatError (msg : String) : String := if msg ≠ "" then msg else "unknown"

/-- One entry of `status.sessions.recent` (only the fields the handler
reads). -/
structure Session where
  key : Option String
  totalTokens : Option Int
  model : Option String
  percentUsed : Option ℚ
  contextTokens : Option Int
  remainingTokens : Option Int
deriving DecidableEq, Repr

/-- The session object of a JS `{}` literal: every field `undefined`. -/
def emptySession : Session := ⟨none, none, none, none, none, none⟩

/-- `status.sessions` (fields the handler reads, with
`sessions.defaults.model` flattened into `defaultsModel`). -/
structure SessionsObj where
  recent : Option (List Session)
  count : Option Int
  defaultsModel : Option String
deriving DecidableEq, Repr

/-- The parsed `openclaw status --json` output (fields the handler reads;
nested optional chains are flattened: `memory?.chunks` into
`memoryChunks`, `gateway?.connectLatencyMs` into
`gatewayConnectLatencyMs`, `heartbeat?.agents?.[0]?.every` into
`heartbeatEvery`, and so on). -/
structure StatusJson where
  sessions : Option SessionsObj
  memoryChunks : Option Int
  memoryFiles : Option Int
  gatewayConnectLatencyMs : Option Int
  gatewayReachable : Option Bool
  heartbeatEvery : Option Int
  channelSummary : Option (List String)
deriving DecidableEq, Repr

/-- `recent.find(s => s.key === 'agent:main:main') || recent[0] || {}`. -/
def mainSessionOf (recent : List Session) : Session :=
  match recent.find? (fun s => s.key = some "agent:main:main") with
  | some s => s
  | none => recent.headD emptySession

/-- The status payload the handler shapes.  Fields a branch does not
assign are `none`/`false` (absent in the JS object). -/
structure OcStats where
  installed : Bool := false
  status : String := ""
  sessions : Option Int := none
  tokens : Option Int := none
  tokens24h : Option Int := none
  lastUpdated : Option Int := none
  model : Option String := none
  contextUsed : Option ℚ := none
  contextTotal : Option Int := none
  contextRemaining : Option Int := none
  memoryChunks : Option Int := none
  memoryFiles : Option Int := none
  gatewayLatency : Option Int := none
  gatewayStatus : Option String := none
  heartbeatInterval : Option Int := none
  channels : Option (List String) := none
  cached : Bool := false
  error : Option String := none
deriving DecidableEq, Repr

/-- Environment of one `getOpenClawStats` loader execution: the outcome of
`getOpenClawStatusJson()`, the `lastKnownOpenClaw` snapshot at entry, the
`openclaw_stats` rows the two queries would return, the resolved CLI path
(`null` ↦ `none`), and `Date.now()`. -/
structure OcEnv where
  statusJson : Except String StatusJson
  lastKnown : Option OcStats
  rows24h : List TokRow
  latestRows : List TokRow
  openclawPath : Option String
  nowMs : Int
deriving Repr

/-- The loader body of `getOpenClawStats`, returning the response payload
together with the new `lastKnownOpenClaw` (only the success branch
reassigns it). -/
def getOpenClawStatsLoader (env : OcEnv) : OcStats × Option OcStats :=
  match env.statusJson with
  | .ok status =>
    let sessions := status.sessions.getD ⟨none, none, none⟩
    let recent := sessions.recent.getD []
    let totalTokens := ((recent.take 10).map (fun s => jsOrI s.totalTokens 0)).sum
    let stats24h := get24HourTokens env.rows24h
    let mainSession := mainSessionOf recent
    let stats : OcStats :=
      { installed := true
        status := "running"
        sessions := some (jsOrI sessions.count 0)
        tokens := some totalTokens
        tokens24h := some stats24h.tokens24h
        lastUpdated := some env.nowMs
        model := some (jsOrStr mainSession.model
          (jsOrStr (status.sessions.bind (·.defaultsModel)) "unknown"))
        contextUsed := some (jsOrQ mainSession.percentUsed 0)
        contextTotal := some (jsOrI mainSession.contextTokens 200000)
        contextRemaining := some (jsOrI mainSession.remainingTokens 0)
        memoryChunks := status.memoryChunks
        memoryFiles := status.memoryFiles
        gatewayLatency := jsOrNullI status.gatewayConnectLatencyMs
        gatewayStatus := some (if status.gatewayReachable = some true
          then "connected" else "disconnected")
        heartbeatInterval := jsOrNullI status.heartbeatEvery
        channels := some (status.channelSummary.getD []) }
    (stats, some stats)
  | .error e =>
    match env.lastKnown with
    | some lk => ({ lk with status := "down", cached := true }, some lk)
    | none =>
      match env.latestRows with
      | last :: _ =>
        let stats24h := get24HourTokens env.rows24h
        ({ installed := true
           status := "down"
           sessions := some last.sessions
           tokens := some last.tokens
           tokens24h := some stats24h.tokens24h
           lastUpdated := some (last.timestamp * 1000)
           cached := true }, none)
      | [] =>
        ({ installed := env.openclawPath.isSome
           status := "unknown"
           error := some (formatError e) }, none)

/-! ## Health check (`getHealthStatus`, part_002 lines 454-544)

Latency readings (`Date.now() - start` around each probe) are wall-clock
observations supplied by the environment; probe outcomes are `Except`
values whose error side is the formatted error text. -/

/-- `checks.api`. -/
structure ApiCheck where
  ok : Bool
  uptimeSeconds : Nat
deriving DecidableEq, Repr

/-- `checks.database`; fields a branch does not assign are `none`. -/
structure DbCheck where
  ok : Bool
  initialized : Option Bool := none
  latencyMs : Nat := 0
  hasData : Option Bool := none
  lastSampleAgeSec : Option Int := none
  note : Option String := none
  error : Option String := none
deriving DecidableEq, Repr

/-- `checks.glances`. -/
structure GlancesCheck where
  ok : Bool
  latencyMs : Nat
  error : Option String := none
deriving DecidableEq, Repr

/-- `checks.openclaw`. -/
structure OpenclawCheck where
  ok : Bool
  installed : Bool
  optional : Option Bool := none
  latencyMs : Nat
  error : Option String := none
deriving DecidableEq, Repr

/-- The `/api/health` payload. -/
structure Health where
  status : String
  timestamp : Int
  api : ApiCheck
  database : DbCheck
  glances : GlancesCheck
  openclaw : OpenclawCheck
deriving DecidableEq, Repr

/-- Environment of one `getHealthStatus` loader execution: the outcome of
the `metrics`-table probe (`queryDb(..., {throwOnError: true})`, rows
reduced to their `timestamp` column), of `fetchGlancesJson('cpu')`, the
resolved CLI path, and the outcome of `getOpenClawStatusJson()` (read only
when a path resolved), plus clock readings. -/
structure HealthEnv where
  dbResult : Except String (List Int)
  dbLatency : Nat
  glancesResult : Except String Unit
  glancesLatency : Nat
  openclawPath : Option String
  statusJsonOk : Except String Unit
  ocLatency : Nat
  uptime : Nat
  nowMs : Int
  nowSec : Int
deriving Repr

/-- The loader body of `getHealthStatus`: probe the store (a missing
`metrics` table is "not yet initialized", still ok), the metrics agent,
and the CLI; any other failure marks the aggregate `degraded`, but a value
is always produced. -/
def getHealthStatus (env : HealthEnv) : Health :=
  let api : ApiCheck := { ok := true, uptimeSeconds := env.uptime }
  let dbPart : DbCheck × Bool :=
    match env.dbResult with
    | .ok rows =>
      let lastTs : Option Int := rows.head?
      ({ ok := true
         latencyMs := env.dbLatency
         hasData := some (decide (rows.length > 0))
         lastSampleAgeSec :=
           match lastTs with
           | some t => if t ≠ 0 then some (max 0 (env.nowSec - t)) else none
           | none => none }, false)
    | .error msg =>
      if hasSubstr msg "no such table: metrics" then
        ({ ok := true, initialized := some false, latencyMs := env.dbLatency,
           hasData := some false, note := some "collector not initialized yet" }, false)
      else
        ({ ok := false, latencyMs := env.dbLatency, error := some msg }, true)
  let glancesPart : GlancesCheck × Bool :=
    match env.glancesResult with
    | .ok _ => ({ ok := true, latencyMs := env.glancesLatency }, false)
    | .error msg => ({ ok := false, latencyMs := env.glancesLatency, error := some msg }, true)
  let ocPart : OpenclawCheck × Bool :=
    match env.openclawPath with
    | none => ({ ok := true, installed := false, optional := some true,
                 latencyMs := env.ocLatency }, false)
    | some _ =>
      match env.statusJsonOk with
      | .ok _ => ({ ok := true, installed := true, latencyMs := env.ocLatency }, false)
      | .error msg => ({ ok := false, installed := true, latencyMs := env.ocLatency,
                         error := some msg }, true)
  let degraded := dbPart.2 || glancesPart.2 || ocPart.2
  { status := if degraded then "degraded" else "ok"
    timestamp := env.nowMs
    api := api
    database := dbPart.1
    glances := glancesPart.1
    openclaw := ocPart.1 }

/-! ## Process insights (`getProcessInsights`, part_002 lines 570-639)

The glances process list and the aggregated 24-hour averages (the SQL
`AVG`/`COUNT ... GROUP BY name HAVING samples > 5` runs in the external
store) are the two inputs. -/

/-- One raw glances `processlist` entry (fields the handler reads;
`memory_info?.rss` flattened into `rss`). -/
structure RawProc where
  name : Option String
  cpu_percent : Option ℚ
  rss : Option ℚ
deriving DecidableEq, Repr

/-- One current-process sample after normalisation. -/
structure Proc where
  name : String
  cpu : ℚ
  ram_mb : ℚ
deriving DecidableEq, Repr

/-- One row of the `HAVING samples > 5` aggregation query: a process name
with its 24-hour mean CPU, mean RAM and sample count. -/
structure AvgRow where
  name : String
  avg_cpu : ℚ
  avg_ram : ℚ
  samples : Nat
deriving DecidableEq, Repr

/-- `avgMap[row.name] = {...}` over the rows in order: the last row with
a given name wins. -/
def avgLookup (rows : List AvgRow) (n : String) : Option AvgRow :=
  rows.foldl (fun acc r => if r.name = n then some r else acc) none

/-- JS `procs.sort((a, b) => (b.cpu_percent || 0) - (a.cpu_percent || 0))`:
a stable sort by CPU, descending.  Insertion: an element goes after every
element with strictly larger CPU and before the first with CPU no larger,
which is exactly the stable descending order. -/
def insertByCpu (x : RawProc) : List RawProc → List RawProc
  | [] => [x]
  | y :: ys =>
    if jsOrQ y.cpu_percent 0 > jsOrQ x.cpu_percent 0 then y :: insertByCpu x ys
    else x :: y :: ys

/-- The stable descending-CPU sort. -/
def sortByCpuDesc (procs : List RawProc) : List RawProc :=
  procs.foldr insertByCpu []

/-- Lines 577-587: walk the top 10 by CPU, skip names already seen, and
normalise each kept entry (`name || 'unknown'`, `cpu_percent || 0`,
`rss / 1048576`). -/
def dedupeProcs (seen : List String) : List RawProc → List Proc
  | [] => []
  | p :: ps =>
    let name := jsOrStr p.name "unknown"
    if name ∈ seen then dedupeProcs seen ps
    else { name := name, cpu := jsOrQ p.cpu_percent 0,
           ram_mb := (p.rss.getD 0) / (1024 * 1024) } :: dedupeProcs (name :: seen) ps

/-- `currentProcs`: top 10 by CPU, de-duplicated by name. -/
def currentProcsOf (procs : List RawProc) : List Proc :=
  dedupeProcs [] ((sortByCpuDesc procs).take 10)

/-- One process insight. -/
structure Insight where
  name : String
  cpu : ℚ
  ram_mb : Int
  avg_cpu : Option ℚ
  avg_ram : Option Int
  anomaly : Option String
deriving DecidableEq, Repr

/-- Lines 609-629: join one current sample against its historical average
and classify: `cpu_high` when mean CPU > 1 and current CPU > 2× mean,
else `ram_high` when mean RAM > 50 and current RAM > 1.5× mean. -/
def mkInsight (avgs : List AvgRow) (p : Proc) : Insight :=
  match avgLookup avgs p.name with
  | some hist =>
    { name := p.name
      cpu := (jsRound (p.cpu * 10) : ℚ) / 10
      ram_mb := jsRound p.ram_mb
      avg_cpu := some ((jsRound (hist.avg_cpu * 10) : ℚ) / 10)
      avg_ram := some (jsRound hist.avg_ram)
      anomaly :=
        if hist.avg_cpu > 1 ∧ p.cpu > hist.avg_cpu * 2 then some "cpu_high"
        else if hist.avg_ram > 50 ∧ p.ram_mb > hist.avg_ram * (3/2) then some "ram_high"
        else none }
  | none =>
    { name := p.name
      cpu := (jsRound (p.cpu * 10) : ℚ) / 10
      ram_mb := jsRound p.ram_mb
      avg_cpu := none
      avg_ram := none
      anomaly := none }

/-- The full insights list for the de-duplicated top current processes. -/
def insightsOf (avgs : List AvgRow) (procs : List Proc) : List Insight :=
  procs.map (mkInsight avgs)

/-- The `/api/processes` payload. -/
structure Insights where
  processes : List Insight
  anomalies : List Insight
  hasHistory : Bool
deriving DecidableEq, Repr

/-- Lines 630-638: `anomalies` filters the full insights list by truthy
`anomaly`, `processes` truncates it to the first 8. -/
def getProcessInsights (raw : List RawProc) (avgs : List AvgRow) : Insights :=
  let insights := insightsOf avgs (currentProcsOf raw)
  { processes := insights.take 8
    anomalies := insights.filter (fun i => jsTruthyStr i.anomaly)
    hasHistory := decide (avgs.length > 0) }

/-! ## HTTP front door (`http.createServer` handler, part_002 lines 641-701)

Each GET route awaits its (cache-wrapped) handler; the cache layer is
modelled separately above, so here a route's body is the handler value
computed from the request environment.  The quote, cron, tokens and
connections payloads are not the subject of any claim and appear as tagged
leaves. -/

/-- One incoming request: method, `url.pathname`, the `range` query
parameter, and the `Origin`/`Host` headers. -/
structure Request where
  method : String
  path : String
  rangeParam : Option String
  origin : Option String
  host : Option String
deriving DecidableEq, Repr

/-- Response bodies, by route. -/
inductive RespBody where
  | empty
  | jsonError (msg : String)
  | openclaw (s : OcStats)
  | tokens24 (t : TokenStats)
  | history (h : HistoryResult)
  | insights (i : Insights)
  | health (h : Health)
  | tagged (tag : String)
deriving DecidableEq, Repr

/-- An HTTP response: status code, the `Access-Control-Allow-Origin`
header if set, and the body. -/
structure Response where
  status : Nat
  corsOrigin : Option String
  body : RespBody
deriving DecidableEq, Repr

/-- Outcome of the upstream glances fetch in `proxyGlancesEndpoint`. -/
inductive GlancesOutcome where
  | ok (body : String)
  | badStatus (code : Nat)
  | unreachable
deriving DecidableEq, Repr

/-- `ALLOWED_GLANCES_ENDPOINTS`. -/
def ALLOWED_GLANCES_ENDPOINTS : List String :=
  ["cpu", "mem", "fs", "load", "network", "processlist", "uptime"]

/-- Environment of one request dispatch: everything the awaited handlers
would observe. -/
structure ServerEnv where
  ocEnv : OcEnv
  historyStore : Nat → List MetricRow
  healthEnv : HealthEnv
  rawProcs : List RawProc
  avgRows : List AvgRow
  glancesFetch : String → GlancesOutcome

/-- `proxyGlancesEndpoint` (lines 178-198): reject names outside the
allow-list as 404, mirror an upstream success, map upstream failures to
502. -/
def proxyGlances (env : ServerEnv) (endpoint : String) : Option String → Response :=
  fun allowedOrigin =>
    if endpoint ∈ ALLOWED_GLANCES_ENDPOINTS then
      match env.glancesFetch endpoint with
      | .ok body => { status := 200, corsOrigin := allowedOrigin, body := .tagged body }
      | .badStatus code =>
        { status := 502, corsOrigin := allowedOrigin,
          body := .jsonError ("Glances returned " ++ toString code) }
      | .unreachable =>
        { status := 502, corsOrigin := allowedOrigin,
          body := .jsonError "Failed to reach Glances" }
    else { status := 404, corsOrigin := allowedOrigin, body := .jsonError "Glances endpoint not found" }

/-- The exact-path route table (lines 674-697). -/
def routeRequest (env : ServerEnv) (req : Request) (allowedOrigin : Option String) : Response :=
  if req.path = "/openclaw" ∨ req.path = "/api/openclaw" then
    { status := 200, corsOrigin := allowedOrigin,
      body := .openclaw (getOpenClawStatsLoader env.ocEnv).1 }
  else if req.path = "/openclaw/history" ∨ req.path = "/api/openclaw/history" then
    { status := 200, corsOrigin := allowedOrigin,
      body := .tokens24 (get24HourTokens env.ocEnv.rows24h) }
  else if req.path = "/history" ∨ req.path = "/api/history" then
    { status := 200, corsOrigin := allowedOrigin,
      body := .history (getHistory env.historyStore (jsRangeParam req.rangeParam)) }
  else if req.path = "/cron" ∨ req.path = "/api/cron" then
    { status := 200, corsOrigin := allowedOrigin, body := .tagged "cron" }
  else if req.path = "/tokens" ∨ req.path = "/api/tokens" then
    { status := 200, corsOrigin := allowedOrigin, body := .tagged "tokens" }
  else if req.path = "/connections" ∨ req.path = "/api/connections" then
    { status := 200, corsOrigin := allowedOrigin, body := .tagged "connections" }
  else if req.path = "/quote" ∨ req.path = "/api/quote" then
    { status := 200, corsOrigin := allowedOrigin, body := .tagged "quote" }
  else if req.path = "/processes" ∨ req.path = "/api/processes" then
    { status := 200, corsOrigin := allowedOrigin,
      body := .insights (getProcessInsights env.rawProcs env.avgRows) }
  else if req.path = "/health" ∨ req.path = "/api/health" then
    { status := 200, corsOrigin := allowedOrigin,
      body := .health (getHealthStatus env.healthEnv) }
  else { status := 404, corsOrigin := allowedOrigin, body := .jsonError "Not found" }

/-- The request handler (lines 641-701): set the CORS header from
`getAllowedOrigin`, answer OPTIONS with 204/403, reject other non-GET
methods with 405, then dispatch the glances proxy prefix or the route
table.  (`url.pathname.slice(...)` yields the empty string for a bare
prefix path, which is falsy, so such a path falls through to the route
table.) -/
def handleRequest (parse : String → Option String) (env : ServerEnv) (req : Request) :
    Response :=
  let allowedOrigin := getAllowedOrigin parse req.origin req.host
  if req.method = "OPTIONS" then
    { status := if allowedOrigin.isSome then 204 else 403,
      corsOrigin := allowedOrigin, body := .empty }
  else if req.method ≠ "GET" then
    { status := 405, corsOrigin := allowedOrigin, body := .jsonError "Method not allowed" }
  else
    -- `glancesPath` is truthy exactly when one prefix matched and the
    -- sliced remainder is nonempty; the two cases are inlined here.
    if pathStarts req.path "/api/glances/" then
      if strDrop req.path 13 ≠ "" then proxyGlances env (strDrop req.path 13) allowedOrigin
      else routeRequest env req allowedOrigin
    else if pathStarts req.path "/glances/" then
      if strDrop req.path 9 ≠ "" then proxyGlances env (strDrop req.path 9) allowedOrigin
      else routeRequest env req allowedOrigin
    else routeRequest env req allowedOrigin

/-- A concrete dispatch environment (fresh process, empty store, no CLI)
used to instantiate request-level statements. -/
def env0 : ServerEnv :=
  { ocEnv :=
      { statusJson := .error "openclaw not found"
        lastKnown := none
        rows24h := []
        latestRows := []
        openclawPath := none
        nowMs := 0 }
    historyStore := fun _ => []
    healthEnv :=
      { dbResult := .error "no such table: metrics"
        dbLatency := 1
        glancesResult := .ok ()
        glancesLatency := 2
        openclawPath := none
        statusJsonOk := .ok ()
        ocLatency := 0
        uptime := 3
        nowMs := 0
        nowSec := 0 }
    rawProcs := []
    avgRows := []
    glancesFetch := fun _ => .unreachable }

/-! ## Claims -/

/-- C1: for every cache key, while a load for that key is in flight every
concurrent `withCache` call with that key coalesces onto the same pending
promise, and the loader is not invoked again — so each miss invokes the
loader exactly once and at most one fetch per key is in flight at any
instant.  Stated over every reachable state of the per-key machine
(arbitrary overlapping traces): if the entry records an in-flight promise
`p`, a call at any later instant returns that same pending promise and
leaves the loader-invocation count unchanged (that a state can record at
most one in-flight promise is structural: `inFlight` is a single
optional field, cleared exactly when its promise settles). -/
theorem withCache_coalesces_inflight {V : Type} (ttl : Nat) (allowStale : Bool)
    (evs : List (Ev V)) (e : Entry V) (p : Nat) (now : Nat)
    (hentry : (run ttl allowStale evs).entry = some e)
    (hflight : e.inFlight = some p)
    (hnow : (run ttl allowStale evs).clock ≤ now) :
    (callStep ttl (run ttl allowStale evs) now).2 = .pending p ∧
    (callStep ttl (run ttl allowStale evs) now).1.invocations =
      (run ttl allowStale evs).invocations :=
  callStep_inFlight ttl _ now (coalesced_run ttl allowStale evs) e p hentry hflight hnow

/-- Witness for C1: after one miss at `t = 0` (loader invocation 0 in
flight), a concurrent call at `t = 5` returns the same pending promise and
the invocation count stays at 1. -/
theorem withCache_coalesces_inflight_witness :
    (callStep 10 (run 10 false ([Ev.call 0] : List (Ev Nat))) 5).2 =
      CallResult.pending 0 ∧
    (callStep 10 (run 10 false ([Ev.call 0] : List (Ev Nat))) 5).1.invocations =
      (run 10 false ([Ev.call 0] : List (Ev Nat))).invocations :=
  withCache_coalesces_inflight 10 false [Ev.call 0] ⟨none, 0, some 0⟩ 0 5
    (by decide) (by decide) (by decide)

/-- C2 counterexample: with `ttl = 10` and `allowStaleOnError`, a value 42
stored at `t = 1` goes stale, a refresh started at `t = 20` fails at
`t = 21`; the stale 42 is re-served and the error suppressed, but the
entry keeps its old timestamp 1 — so the claimed freshness extension does
not happen: the immediate subsequent call at `t = 22` (well within a TTL
of the re-serve) is not a fresh hit but starts loader invocation 3
(pending promise 2). -/
theorem withCache_stale_reserve_no_extension_cex :
    (rejectStep true
        (run 10 true ([Ev.call 0, Ev.resolve 0 42 1, Ev.call 20] : List (Ev Nat)))
        1 21).2 = some 42 ∧
    (run 10 true
        ([Ev.call 0, Ev.resolve 0 42 1, Ev.call 20, Ev.reject 1 21] : List (Ev Nat))).entry =
      some ⟨some 42, 1, none⟩ ∧
    (callStep 10
        (run 10 true
          ([Ev.call 0, Ev.resolve 0 42 1, Ev.call 20, Ev.reject 1 21] : List (Ev Nat)))
        22).2 = CallResult.pending 2 ∧
    (callStep 10
        (run 10 true
          ([Ev.call 0, Ev.resolve 0 42 1, Ev.call 20, Ev.reject 1 21] : List (Ev Nat)))
        22).1.invocations = 3 := by
  decide

/-- C2 (amended): when the loader fails, if `allowStaleOnError` is set and
a previous value exists, that value is re-served and the error suppressed,
but its original timestamp is preserved (the freshness window is NOT
extended): any subsequent call past the original timestamp's TTL invokes
the loader again.  Without `allowStaleOnError` (or without a previous
value) the failure propagates and the previous timestamp is likewise left
unchanged, so a subsequent call retries promptly. -/
theorem withCache_reject_semantics {V : Type} (aS : Bool) (st : CacheState V)
    (ttl pid now : Nat) (cex : Option (Option V × Nat))
    (h : st.captured = some (pid, cex)) :
    (∀ v ts, cex = some (some v, ts) →
      ((rejectStep aS st pid now).2 = if aS then some v else none) ∧
      (rejectStep aS st pid now).1.entry = some ⟨some v, ts, none⟩ ∧
      ∀ now2 : Nat, (now2 : Int) - ts ≥ ttl →
        (callStep ttl (rejectStep aS st pid now).1 now2).2 = .pending st.nextId ∧
        (callStep ttl (rejectStep aS st pid now).1 now2).1.invocations =
          st.invocations + 1) ∧
    (∀ ts, cex = some (none, ts) →
      (rejectStep aS st pid now).2 = none ∧
      (rejectStep aS st pid now).1.entry = some ⟨none, ts, none⟩) ∧
    (cex = none →
      (rejectStep aS st pid now).2 = none ∧
      (rejectStep aS st pid now).1.entry = some ⟨none, 0, none⟩) := by
  obtain ⟨entry, captured, nextId, clock, inv⟩ := st
  simp only at h
  subst h
  refine ⟨?_, ?_, ?_⟩
  · intro v ts hcex
    subst hcex
    refine ⟨?_, ?_, ?_⟩
    · cases aS <;> simp [rejectStep]
    · cases aS <;> simp [rejectStep]
    · intro now2 hstale
      have hfresh : ¬ ((now2 : Int) - ts < ttl) := by omega
      cases aS <;>
        simp [rejectStep, callStep, if_neg hfresh, missStep, startFetch]
  · intro ts hcex
    subst hcex
    simp [rejectStep]
  · intro hcex
    subst hcex
    simp [rejectStep]

/-- Witness for C2's amended claim, on the counterexample trace: the
rejection at `t = 21` re-serves 42 and stores it with its original
timestamp 1. -/
theorem withCache_reject_semantics_witness :
    (rejectStep true
        (run 10 true ([Ev.call 0, Ev.resolve 0 42 1, Ev.call 20] : List (Ev Nat)))
        1 21).2 = some 42 ∧
    (rejectStep true
        (run 10 true ([Ev.call 0, Ev.resolve 0 42 1, Ev.call 20] : List (Ev Nat)))
        1 21).1.entry = some ⟨some 42, 1, none⟩ := by
  have h := withCache_reject_semantics true
    (run 10 true ([Ev.call 0, Ev.resolve 0 42 1, Ev.call 20] : List (Ev Nat)))
    10 1 21 (some (some 42, 1)) (by decide)
  have h1 := h.1 42 1 rfl
  exact ⟨by simpa using h1.1, h1.2.1⟩

/-- C3: when the live CLI call fails, the status handler serves the last
known in-memory snapshot tagged `status: 'down'`, `cached: true`; with no
snapshot it falls back to the latest persisted `openclaw_stats` row (also
`'down'`, `cached: true`); with no rows either it reports `status:
'unknown'` with `installed` equal to the executable-path probe result. -/
theorem openclaw_stats_failure_fallback (env : OcEnv) (e : String)
    (h : env.statusJson = .error e) :
    (∀ lk, env.lastKnown = some lk →
      (getOpenClawStatsLoader env).1 = { lk with status := "down", cached := true }) ∧
    (∀ last rest, env.lastKnown = none → env.latestRows = last :: rest →
      (getOpenClawStatsLoader env).1 =
        { installed := true
          status := "down"
          sessions := some last.sessions
          tokens := some last.tokens
          tokens24h := some (get24HourTokens env.rows24h).tokens24h
          lastUpdated := some (last.timestamp * 1000)
          cached := true }) ∧
    (env.lastKnown = none → env.latestRows = [] →
      (getOpenClawStatsLoader env).1 =
        { installed := env.openclawPath.isSome
          status := "unknown"
          error := some (formatError e) } ∧
      (getOpenClawStatsLoader env).1.cached = false) := by
  refine ⟨?_, ?_, ?_⟩
  · intro lk hlk
    simp [getOpenClawStatsLoader, h, hlk]
  · intro last rest hlk hrows
    simp [getOpenClawStatsLoader, h, hlk, hrows]
  · intro hlk hrows
    simp [getOpenClawStatsLoader, h, hlk, hrows]

/-- Witness for C3: a failing CLI call with an in-memory snapshot present
re-serves the snapshot tagged down/cached. -/
theorem openclaw_stats_failure_fallback_witness :
    (getOpenClawStatsLoader
        { statusJson := .error "spawn failed"
          lastKnown := some { installed := true, status := "running",
                              sessions := some 2, tokens := some 100 }
          rows24h := []
          latestRows := []
          openclawPath := some "/usr/local/bin/openclaw"
          nowMs := 5000 }).1 =
      { installed := true, status := "down", sessions := some 2,
        tokens := some 100, cached := true } := by
  have h := openclaw_stats_failure_fallback
    { statusJson := .error "spawn failed"
      lastKnown := some { installed := true, status := "running",
                          sessions := some 2, tokens := some 100 }
      rows24h := []
      latestRows := []
      openclawPath := some "/usr/local/bin/openclaw"
      nowMs := 5000 } "spawn failed" rfl
  exact h.1 _ rfl

/-- C5: for every ordered row list from the last 24 h the token delta is
`last.tokens - first.tokens` clamped below at 0 (hence always ≥ 0, also
across counter resets), `samples` is the row count, and the empty list
yields exactly `{tokens24h: 0, samples: 0}`. -/
theorem tokens24h_delta_spec (rows : List TokRow) :
    0 ≤ (get24HourTokens rows).tokens24h ∧
    (get24HourTokens rows).samples = rows.length ∧
    (∀ first last, rows.head? = some first → rows.getLast? = some last →
      (get24HourTokens rows).tokens24h = max 0 (last.tokens - first.tokens)) ∧
    (rows = [] →
      get24HourTokens rows = { tokens24h := 0, samples := 0, history := none }) := by
  cases rows with
  | nil =>
    refine ⟨le_refl 0, rfl, ?_, fun _ => rfl⟩
    intro f l hf hl
    simp at hf
  | cons r rs =>
    refine ⟨?_, rfl, ?_, ?_⟩
    · exact le_max_left 0 _
    · intro first last h1 h2
      have hf : first = r := by simpa using h1.symm
      have hl : (r :: rs).getLast (List.cons_ne_nil r rs) = last := by
        have hgl := List.getLast?_eq_getLast (r :: rs) (List.cons_ne_nil r rs)
        rw [hgl] at h2
        exact Option.some_injective _ h2
      rw [hf]
      simp [get24HourTokens, jsMax0, hl]
    · intro hc
      cases hc

/-- Witness for C5: two rows with a decreasing counter (simulated reset)
yield a delta of 0, not a negative number. -/
theorem tokens24h_delta_spec_witness :
    (get24HourTokens [⟨0, 1, 100⟩, ⟨10, 1, 40⟩]).tokens24h =
      max 0 ((40 : Int) - 100) ∧
    0 ≤ (get24HourTokens [⟨0, 1, 100⟩, ⟨10, 1, 40⟩]).tokens24h :=
  ⟨(tokens24h_delta_spec [⟨0, 1, 100⟩, ⟨10, 1, 40⟩]).2.2.1 ⟨0, 1, 100⟩ ⟨10, 1, 40⟩ rfl rfl,
   (tokens24h_delta_spec [⟨0, 1, 100⟩, ⟨10, 1, 40⟩]).1⟩

/-- C6: every range value outside `{1h, 8h, 24h, 7d, 30d}` falls back to
the `1h` window: the handler returns the very same result as for `'1h'`
(same `range` field, `count` and `metrics`, given the same store), and a
missing (or empty) `range` parameter is read as `'1h'` by the front door. -/
theorem history_invalid_range_fallback (store : Nat → List MetricRow) (r : String)
    (h : rangesMap r = none) :
    getHistory store r = getHistory store "1h" ∧
    (getHistory store r).range = "1h" ∧
    jsRangeParam none = "1h" ∧ jsRangeParam (some "") = "1h" := by
    refine ⟨?_, ?_, rfl, rfl⟩ <;> simp [getHistory, h]

/-- Witness for C6 at `range = "bogus"` and the store of window `w`
holding one row at timestamp `w`. -/
theorem history_invalid_range_fallback_witness :
    getHistory (fun w => [⟨w, "row"⟩]) "bogus" = getHistory (fun w => [⟨w, "row"⟩]) "1h" ∧
    (getHistory (fun w => [⟨w, "row"⟩]) "bogus").range = "1h" :=
  ⟨(history_invalid_range_fallback (fun w => [⟨w, "row"⟩]) "bogus" rfl).1,
   (history_invalid_range_fallback (fun w => [⟨w, "row"⟩]) "bogus" rfl).2.1⟩

/-- C4: a process with a historical average is flagged `cpu_high` exactly
when mean CPU > 1 and current CPU > 2× mean; otherwise `ram_high` exactly
when mean RAM > 50 and current RAM > 1.5× mean (CPU priority); a process
without a qualifying average is never flagged.  In particular current cpu
10 against mean cpu 4 (6 samples) is `cpu_high` and against mean cpu 6 (6
samples) is no anomaly. -/
theorem process_anomaly_classification :
    (∀ avgs p hist, avgLookup avgs p.name = some hist →
      ((mkInsight avgs p).anomaly = some "cpu_high" ↔
        hist.avg_cpu > 1 ∧ p.cpu > hist.avg_cpu * 2) ∧
      ((mkInsight avgs p).anomaly = some "ram_high" ↔
        ¬ (hist.avg_cpu > 1 ∧ p.cpu > hist.avg_cpu * 2) ∧
          hist.avg_ram > 50 ∧ p.ram_mb > hist.avg_ram * (3 / 2))) ∧
    (∀ avgs p, avgLookup avgs p.name = none → (mkInsight avgs p).anomaly = none) ∧
    (mkInsight [⟨"proc", 4, 0, 6⟩] ⟨"proc", 10, 0⟩).anomaly = some "cpu_high" ∧
    (mkInsight [⟨"proc", 6, 0, 6⟩] ⟨"proc", 10, 0⟩).anomaly = none := by
  refine ⟨?_, ?_, ?_, ?_⟩
  · intro avgs p hist h
    simp only [mkInsight, h]
    by_cases hcpu : hist.avg_cpu > 1 ∧ p.cpu > hist.avg_cpu * 2
    · simp [hcpu]
    · by_cases hram : hist.avg_ram > 50 ∧ p.ram_mb > hist.avg_ram * (3 / 2)
      · simp [hcpu, hram]
      · simp [hcpu, hram]
  · intro avgs p h
    simp [mkInsight, h]
  · with_unfolding_all decide
  · with_unfolding_all decide

/-- Witness for C4: the classification rule applied to the claim's first
example (current cpu 10, historical mean cpu 4 over 6 samples). -/
theorem process_anomaly_classification_witness :
    ((mkInsight [⟨"proc", 4, 0, 6⟩] ⟨"proc", 10, 0⟩).anomaly = some "cpu_high" ↔
      (4 : ℚ) > 1 ∧ (10 : ℚ) > 4 * 2) :=
  (process_anomaly_classification.1 [⟨"proc", 4, 0, 6⟩] ⟨"proc", 10, 0⟩ ⟨"proc", 4, 0, 6⟩
    (by with_unfolding_all decide)).1

/-- Every branch of the dispatcher carries the `getAllowedOrigin` result
as the `Access-Control-Allow-Origin` header. -/
theorem handleRequest_cors (parse : String → Option String) (env : ServerEnv)
    (req : Request) :
    (handleRequest parse env req).corsOrigin =
      getAllowedOrigin parse req.origin req.host := by
  have hroute : ∀ ao, (routeRequest env req ao).corsOrigin = ao := by
    intro ao
    unfold routeRequest
    split_ifs <;> rfl
  have hproxy : ∀ gp ao, (proxyGlances env gp ao).corsOrigin = ao := by
    intro gp ao
    unfold proxyGlances
    split_ifs
    · cases env.glancesFetch gp <;> rfl
    · rfl
  unfold handleRequest
  split_ifs <;> first | rfl | exact hroute _ | exact hproxy _ _

/-- C7: the `Access-Control-Allow-Origin` header is set — to the declared
origin — exactly when the declared origin's hostname is a loopback host or
equals the hostname of the request's own `Host` header; any other origin
(unparsable included, absent included) gets no header.  A WHATWG http(s)
URL's hostname is nonempty, which is the `hn ≠ ""` hypothesis. -/
theorem cors_allow_origin_iff (parse : String → Option String) (env : ServerEnv)
    (req : Request) :
    (∀ o hn, req.origin = some o → o ≠ "" → parse o = some hn → hn ≠ "" →
      (((handleRequest parse env req).corsOrigin = some o) ↔
        (hn ∈ localHosts ∨ hn = requestHostOf req.host)) ∧
      (((handleRequest parse env req).corsOrigin = none) ↔
        ¬ (hn ∈ localHosts ∨ hn = requestHostOf req.host))) ∧
    (req.origin = none → (handleRequest parse env req).corsOrigin = none) ∧
    (∀ o, req.origin = some o → parse o = none →
      (handleRequest parse env req).corsOrigin = none) := by
  rw [handleRequest_cors parse env req]
  refine ⟨?_, ?_, ?_⟩
  · intro o hn ho hoe hp hne
    rw [ho]
    simp only [getAllowedOrigin, hp, if_neg hoe]
    by_cases h1 : hn ∈ localHosts
    · simp [h1]
    · by_cases h2 : hn = requestHostOf req.host
      · have hreq : requestHostOf req.host ≠ "" := h2 ▸ hne
        simp [h1, h2, hreq]
      · simp [h1, h2]
  · intro ho
    rw [ho]
    rfl
  · intro o ho hp
    rw [ho]
    by_cases hoe : o = "" <;> simp [getAllowedOrigin, hp, hoe]

/-- Witness for C7: origin `http://evil.example:80` (hostname
`evil.example`), request `Host` `dash.local:8889` — hostnames differ and
are not loopback, so no CORS header; and the same parse function on a
loopback origin sets the header. -/
theorem cors_allow_origin_iff_witness :
    ((handleRequest
        (fun s => if s = "http://evil.example:80" then some "evil.example"
                  else some "localhost")
        env0
        { method := "GET", path := "/api/quote", rangeParam := none,
          origin := some "http://evil.example:80",
          host := some "dash.local:8889" }).corsOrigin = none) ∧
    ((handleRequest
        (fun s => if s = "http://evil.example:80" then some "evil.example"
                  else some "localhost")
        env0
        { method := "GET", path := "/api/quote", rangeParam := none,
          origin := some "http://localhost:8888",
          host := some "dash.local:8889" }).corsOrigin =
      some "http://localhost:8888") := by
  constructor
  · exact ((cors_allow_origin_iff
      (fun s => if s = "http://evil.example:80" then some "evil.example"
                else some "localhost")
      env0
      { method := "GET", path := "/api/quote", rangeParam := none,
        origin := some "http://evil.example:80",
        host := some "dash.local:8889" }).1 "http://evil.example:80" "evil.example"
      rfl (by decide) (by decide) (by decide)).2.mpr (by with_unfolding_all decide)
  · exact ((cors_allow_origin_iff
      (fun s => if s = "http://evil.example:80" then some "evil.example"
                else some "localhost")
      env0
      { method := "GET", path := "/api/quote", rangeParam := none,
        origin := some "http://localhost:8888",
        host := some "dash.local:8889" }).1 "http://localhost:8888" "localhost"
      rfl (by decide) (by decide) (by decide)).1.mpr (by with_unfolding_all decide)

/-- C8: a missing `metrics` table yields a database check with `ok: true`
and `initialized: false`, and the overall status is `'ok'` exactly when
the other two probes pass (the database check alone never degrades it);
a failing metrics agent or CLI makes the status `'degraded'`, yet the
health route still answers 200 with the health payload. -/
theorem health_missing_table_ok (env : HealthEnv) (msg : String)
    (h1 : env.dbResult = .error msg)
    (h2 : hasSubstr msg "no such table: metrics" = true) :
    (getHealthStatus env).database.ok = true ∧
    (getHealthStatus env).database.initialized = some false ∧
    ((getHealthStatus env).status = "ok" ↔
      (env.glancesResult = .ok () ∧
        (env.openclawPath = none ∨ env.statusJsonOk = .ok ()))) ∧
    (∀ gmsg, env.glancesResult = .error gmsg →
      (getHealthStatus env).status = "degraded") ∧
    (∀ p omsg, env.openclawPath = some p → env.statusJsonOk = .error omsg →
      (getHealthStatus env).status = "degraded") ∧
    (∀ parse senv req, senv.healthEnv = env → req.method = "GET" →
      req.path = "/api/health" →
      (handleRequest parse senv req).status = 200 ∧
      (handleRequest parse senv req).body = .health (getHealthStatus env)) := by
  have hne : ("degraded" : String) ≠ "ok" := by decide
  have hok : ∀ u : Unit, (Except.ok u : Except String Unit) = .ok () := by
    intro u; cases u; rfl
  refine ⟨?_, ?_, ?_, ?_, ?_, ?_⟩
  · simp [getHealthStatus, h1, h2]
  · simp [getHealthStatus, h1, h2]
  · cases hgl : env.glancesResult with
    | error gmsg => simp [getHealthStatus, h1, h2, hgl, hne]
    | ok u =>
      cases hoc : env.openclawPath with
      | none => simp [getHealthStatus, h1, h2, hgl, hoc, hok u]
      | some p =>
        cases hsj : env.statusJsonOk with
        | error omsg => simp [getHealthStatus, h1, h2, hgl, hoc, hsj, hne, hok u]
        | ok u2 => simp [getHealthStatus, h1, h2, hgl, hoc, hsj, hok u, hok u2]
  · intro gmsg hgl
    simp [getHealthStatus, h1, h2, hgl]
  · intro p omsg hoc hsj
    simp [getHealthStatus, h1, h2, hoc, hsj]
  · intro parse senv req hse hm hp
    obtain ⟨m, pa, rp, o, ho⟩ := req
    simp only at hm hp
    subst hm
    subst hp
    refine ⟨?_, ?_⟩
    · with_unfolding_all rfl
    · rw [← hse]
      with_unfolding_all rfl

/-- Witness for C8: a fresh environment whose store has no `metrics`
table and whose other probes pass reports an ok, uninitialized database
and overall status `'ok'`. -/
theorem health_missing_table_ok_witness :
    (getHealthStatus env0.healthEnv).database.ok = true ∧
    (getHealthStatus env0.healthEnv).database.initialized = some false ∧
    (getHealthStatus env0.healthEnv).status = "ok" := by
  have h := health_missing_table_ok env0.healthEnv "no such table: metrics" rfl
    (by with_unfolding_all decide)
  exact ⟨h.1, h.2.1, (h.2.2.1).mpr ⟨rfl, Or.inl rfl⟩⟩

/-- C9 counterexample: an OPTIONS request is answered before the method
gate — here with 403 and an empty body, not with 405 and `{error: "Method
not allowed"}` as the claim requires for every non-GET method. -/
theorem method_gate_options_cex :
    (handleRequest (fun _ => none) env0
        { method := "OPTIONS", path := "/api/openclaw", rangeParam := none,
          origin := none, host := none }).status = 403 ∧
    (handleRequest (fun _ => none) env0
        { method := "OPTIONS", path := "/api/openclaw", rangeParam := none,
          origin := none, host := none }).status ≠ 405 ∧
    (handleRequest (fun _ => none) env0
        { method := "OPTIONS", path := "/api/openclaw", rangeParam := none,
          origin := none, host := none }).body = RespBody.empty := by
  with_unfolding_all decide

/-- C9 (amended): every request whose method is neither GET nor OPTIONS is
rejected with 405 and `{error: "Method not allowed"}`, on every path;
OPTIONS requests are instead answered by the preflight branch — 204 when
the origin is allowed, 403 otherwise, with an empty body. -/
theorem method_gate_non_get_405 (parse : String → Option String) (env : ServerEnv)
    (req : Request) (h1 : req.method ≠ "OPTIONS") (h2 : req.method ≠ "GET") :
    (handleRequest parse env req).status = 405 ∧
    (handleRequest parse env req).body = .jsonError "Method not allowed" ∧
    (∀ req2 : Request, req2.method = "OPTIONS" →
      (handleRequest parse env req2).body = .empty ∧
      (handleRequest parse env req2).status =
        (if (getAllowedOrigin parse req2.origin req2.host).isSome then 204 else 403)) := by
  refine ⟨?_, ?_, ?_⟩
  · unfold handleRequest
    rw [if_neg h1, if_pos h2]
  · unfold handleRequest
    rw [if_neg h1, if_pos h2]
  · intro req2 hm
    unfold handleRequest
    rw [if_pos hm]
    exact ⟨rfl, rfl⟩

/-- Witness for C9's amended claim: a POST request gets 405 with the
method-not-allowed error body. -/
theorem method_gate_non_get_405_witness :
    (handleRequest (fun _ => none) env0
        { method := "POST", path := "/api/openclaw", rangeParam := none,
          origin := none, host := none }).status = 405 ∧
    (handleRequest (fun _ => none) env0
        { method := "POST", path := "/api/openclaw", rangeParam := none,
          origin := none, host := none }).body =
      RespBody.jsonError "Method not allowed" := by
  have h := method_gate_non_get_405 (fun _ => none) env0
    { method := "POST", path := "/api/openclaw", rangeParam := none,
      origin := none, host := none } (by decide) (by decide)
  exact ⟨h.1, h.2.1⟩

/-- De-duplication never lengthens the process list. -/
theorem dedupeProcs_length_le (seen : List String) (l : List RawProc) :
    (dedupeProcs seen l).length ≤ l.length := by
  induction l generalizing seen with
  | nil => simp [dedupeProcs]
  | cons p ps ih =>
    simp only [dedupeProcs]
    split_ifs
    · exact Nat.le_succ_of_le (ih seen)
    · exact Nat.succ_le_succ (ih _)

/-- Ten current processes with distinct names, CPU strictly descending;
the 9th-ranked (`i8`, cpu 20) will be the anomalous one. -/
def rawTen : List RawProc :=
  [⟨some "i0", some 100, none⟩, ⟨some "i1", some 90, none⟩,
   ⟨some "i2", some 80, none⟩, ⟨some "i3", some 70, none⟩,
   ⟨some "i4", some 60, none⟩, ⟨some "i5", some 50, none⟩,
   ⟨some "i6", some 40, none⟩, ⟨some "i7", some 30, none⟩,
   ⟨some "i8", some 20, none⟩, ⟨some "i9", some 10, none⟩]

/-- A historical average qualifying `i8` for a CPU anomaly
(mean cpu 5 < 20/2, over 6 samples). -/
def avgsNine : List AvgRow := [⟨"i8", 5, 0, 6⟩]

/-- C10: `anomalies` is exactly the truthy-anomaly sublist of the full
insights list (over the up-to-10 de-duplicated current processes) while
`processes` is that list truncated to 8 — so a flagged process ranked 9th
appears in `anomalies` but not in `processes`, as the concrete instance
shows. -/
theorem insights_anomalies_vs_processes :
    (∀ raw avgs,
      (getProcessInsights raw avgs).anomalies =
        (insightsOf avgs (currentProcsOf raw)).filter (fun i => jsTruthyStr i.anomaly) ∧
      (getProcessInsights raw avgs).processes =
        (insightsOf avgs (currentProcsOf raw)).take 8 ∧
      (currentProcsOf raw).length ≤ 10) ∧
    ((⟨"i8", 20, 0, some 5, some 0, some "cpu_high"⟩ : Insight) ∈
        (getProcessInsights rawTen avgsNine).anomalies ∧
     (⟨"i8", 20, 0, some 5, some 0, some "cpu_high"⟩ : Insight) ∉
        (getProcessInsights rawTen avgsNine).processes) := by
  constructor
  · intro raw avgs
    refine ⟨rfl, rfl, ?_⟩
    exact le_trans (dedupeProcs_length_le [] _)
      (by simp [List.length_take_le])
  · with_unfolding_all decide

end ClawDash
